import Mathlib

/-!
Verification of the super-marketplace template-based request proxy.

The definitions below are a shallow embedding of the JavaScript sources:
* src/api-gateway-sdk/src/core/RequestTemplateManager.js (template store,
  permission manifest, validation, placeholder substitution),
* src/api-gateway-sdk/src/gateway/server.js (the /gateway/invoke-template
  handler, the morgan log ring, isOriginAllowed),
* the ApiProxyHandler (logRequest, getStats, getRecentLogs).

JavaScript values flowing through the code (contexts, bodies, response data)
are modelled by the inductive type Js; machine floats only carry small integer
counters and durations here, so they are modelled as exact integers.
-/

namespace SuperMarketplace

/-- JSON-like values as manipulated by the JavaScript code: request bodies,
invocation contexts and response payloads. -/
inductive Js where
  | null : Js
  | bool : Bool → Js
  | num : Int → Js
  | str : String → Js
  | arr : List Js → Js
  | obj : List (String × Js) → Js

/-- JavaScript truthiness of a value (null, false, 0 and the empty string are
falsy; every array and object is truthy). -/
def jsTruthy : Js → Bool
  | .null => false
  | .bool b => b
  | .num n => n != 0
  | .str s => s != ""
  | .arr _ => true
  | .obj _ => true

/-- JavaScript truthiness of a possibly-absent value (undefined is falsy). -/
def jsOptTruthy : Option Js → Bool
  | none => false
  | some v => jsTruthy v

/-- The JavaScript test (typeof v === "object"): true for null, arrays and
objects, false for booleans, numbers and strings. -/
def jsIsObjectType : Js → Bool
  | .null => true
  | .arr _ => true
  | .obj _ => true
  | _ => false

/-- The JavaScript membership test (key in value) for objects (own keys) and
arrays (canonical numeric indices below the length). -/
def jsHasKey : Js → String → Bool
  | .obj fields, k => fields.any (fun p => p.1 == k)
  | .arr xs, k => (List.range xs.length).any (fun i => toString i == k)
  | _, _ => false

/-- Property read value[key] for objects and arrays; null stands for the
absent case (only reached when jsHasKey is false). -/
def jsGetKey : Js → String → Js
  | .obj fields, k => (((fields.find? (fun p => p.1 == k)).map (·.2)).getD .null)
  | .arr xs, k =>
      ((((List.range xs.length).find? (fun i => toString i == k)).bind
        (fun i => xs.get? i)).getD .null)
  | _, _ => .null

mutual

/-- JavaScript string coercion String(v), as applied to a substituted template
value by the replace callback of processTemplateString. -/
def jsToStr : Js → String
  | .null => "null"
  | .bool b => if b then "true" else "false"
  | .num n => toString n
  | .str s => s
  | .arr xs => jsArrJoin xs
  | .obj _ => "[object Object]"

/-- Array.prototype.join with the default comma separator: null elements
render as the empty string. -/
def jsArrJoin : List Js → String
  | [] => ""
  | [Js.null] => ""
  | [x] => jsToStr x
  | Js.null :: xs => "," ++ jsArrJoin xs
  | x :: xs => jsToStr x ++ "," ++ jsArrJoin xs

end

/-- JavaScript whitespace for String.prototype.trim and the regex class \s
(ASCII forms plus the no-break space; the repository's templates only ever
use plain spaces). -/
def isJsSpace (c : Char) : Bool :=
  c = ' ' || c = '\t' || c = '\n' || c = '\r' || c = '\x0b' || c = '\x0c' || c = '\u00A0'

/-- String.prototype.trim on a character list. -/
def jsTrim (cs : List Char) : List Char :=
  ((cs.dropWhile isJsSpace).reverse.dropWhile isJsSpace).reverse

/-- Accumulator loop for splitOnDot. -/
def splitOnDotGo : List Char → List Char → List String
  | acc, [] => [String.mk acc.reverse]
  | acc, '.' :: rest => String.mk acc.reverse :: splitOnDotGo [] rest
  | acc, c :: rest => splitOnDotGo (c :: acc) rest

/-- String.prototype.split(".") as used on the trimmed template expression:
leading, trailing or doubled dots yield empty segments and the empty string
yields one empty segment, exactly as in JavaScript. -/
def splitOnDot (cs : List Char) : List String :=
  splitOnDotGo [] cs

/-- The context walk in RequestTemplateManager.processTemplateString
(lines 131-141): each segment of the dotted path is looked up in turn; the
walk fails — the source then warns and keeps the placeholder text — when the
current value is not a truthy object or lacks the key. -/
def resolvePath : Js → List String → Option Js
  | v, [] => some v
  | v, k :: ks =>
      if jsTruthy v && jsIsObjectType v && jsHasKey v k then
        resolvePath (jsGetKey v k) ks
      else
        none

/-- A request template as stored in config/requests.json. Absent optional
fields are none. Stored templates never carry a body; the body field exists so
that processTemplate's output (which may attach one) shares the type. -/
structure Template where
  method : Option String := none
  protocol : Option String := none
  host : Option String := none
  path : Option String := none
  headers : Option (List (String × String)) := none
  query : Option (List (String × String)) := none
  body : Option Js := none

/-- JavaScript falsiness of an optional string field (absent or empty). -/
def strFalsy : Option String → Bool
  | none => true
  | some s => s == ""

/-- The in-memory state of RequestTemplateManager: the template store loaded
from config/requests.json and the set of template names declared in the
application's manifest.json. -/
structure RequestTemplateManager where
  templates : List (String × Template) := []
  manifestTemplates : List String := []

/-- RequestTemplateManager.getTemplate: store lookup by name. -/
def getTemplate (tm : RequestTemplateManager) (name : String) : Option Template :=
  (tm.templates.find? (fun p => p.1 == name)).map (·.2)

/-- RequestTemplateManager.isTemplateDeclared: manifest membership. -/
def isTemplateDeclared (tm : RequestTemplateManager) (name : String) : Bool :=
  tm.manifestTemplates.contains name

/-- The errors thrown by RequestTemplateManager.validateTemplate. -/
inductive TemplateError where
  | notFound (name : String)
  | notDeclared (name : String)
  | missingMethod (name : String)
  | missingHost (name : String)
  deriving Repr, DecidableEq

/-- The exact Error messages of validateTemplate. -/
def TemplateError.message : TemplateError → String
  | .notFound n => "Template \"" ++ n ++ "\" not found in request templates"
  | .notDeclared n => "Template \"" ++ n ++ "\" not declared in manifest.json"
  | .missingMethod n => "Template \"" ++ n ++ "\" missing required field: method"
  | .missingHost n => "Template \"" ++ n ++ "\" missing required field: host"

/-- RequestTemplateManager.validateTemplate (lines 68-88): not-found, then
not-declared, then the required-field checks on method and host (the source
tests JavaScript falsiness, so an empty string also fails). -/
def validateTemplate (tm : RequestTemplateManager) (name : String) :
    Except TemplateError Template :=
  match getTemplate tm name with
  | none => .error (.notFound name)
  | some t =>
      if !(isTemplateDeclared tm name) then .error (.notDeclared name)
      else if strFalsy t.method then .error (.missingMethod name)
      else if strFalsy t.host then .error (.missingHost name)
      else .ok t

/-- One attempt of the regex engine to match /<%=\s*([^%]+)\s*%>/ at the
current position: the literal <%=, then a non-empty run of non-percent
characters, then the literal %>. Returns the full matched text, the matched
run (the regex hands the callback this run minus leading whitespace, but the
callback trims it anyway, so the difference is immaterial) and the remaining
input. Whitespace is itself a non-percent character, which is why the two \s*
groups fold into the run. -/
def matchPlaceholder : List Char → Option (String × String × List Char)
  | '<' :: '%' :: '=' :: rest =>
      match rest.takeWhile (fun x => x != '%'), rest.dropWhile (fun x => x != '%') with
      | c :: cnt, '%' :: '>' :: tail =>
          some ("<%=" ++ String.mk (c :: cnt) ++ "%>", String.mk (c :: cnt), tail)
      | _, _ => none
  | _ => none

/-- The replace callback of processTemplateString (lines 129-143): trim the
captured varRaw, split it on dots, walk the context; on success substitute
the coerced value with no warning, otherwise keep the entire matched text and
warn once. -/
def templateVarCallback (ctx : Js) (matched : String) (varRaw : String) :
    String × Nat :=
  match resolvePath ctx (splitOnDot (jsTrim varRaw.toList)) with
  | some v => (jsToStr v, 0)
  | none => (matched, 1)

/-- A parsed piece of a template string: a literal character, or a placeholder
with its full matched text and its captured varRaw. -/
inductive Seg where
  | lit (c : Char)
  | ph (full : String) (varRaw : String)

/-- The scan of the global regex replace, split into context-independent
segments: at each position try the placeholder pattern; on a match emit a
placeholder segment and continue after it, otherwise emit the character and
advance by one. The fuel argument only serves termination; every step consumes
at least one character, so fuel equal to the input length never runs out (see
parseSegsF_fuel_irrel), and on exhaustion the rest is emitted literally. -/
def parseSegsF : Nat → List Char → List Seg
  | _, [] => []
  | 0, c :: cs => (c :: cs).map Seg.lit
  | fuel + 1, c :: cs =>
      match matchPlaceholder (c :: cs) with
      | some (full, varRaw, tail) => .ph full varRaw :: parseSegsF fuel tail
      | none => .lit c :: parseSegsF fuel cs

/-- Segments of a template string. -/
def parseSegs (cs : List Char) : List Seg :=
  parseSegsF cs.length cs

/-- RequestTemplateManager.processTemplateString (lines 123-144) on a
character list, paired with the number of warnings the source logs: the
scan-and-replace loop of the global regex replace, with the fuel convention of
parseSegsF. -/
def procGoF (ctx : Js) : Nat → List Char → String × Nat
  | _, [] => ("", 0)
  | 0, c :: cs => (String.mk (c :: cs), 0)
  | fuel + 1, c :: cs =>
      match matchPlaceholder (c :: cs) with
      | some (full, varRaw, tail) =>
          let repl := templateVarCallback ctx full varRaw
          let out := procGoF ctx fuel tail
          (repl.1 ++ out.1, repl.2 + out.2)
      | none =>
          let out := procGoF ctx fuel cs
          (String.singleton c ++ out.1, out.2)

/-- RequestTemplateManager.processTemplateString with its warning count. -/
def processTemplateStringW (s : String) (ctx : Js) : String × Nat :=
  procGoF ctx s.toList.length s.toList

/-- RequestTemplateManager.processTemplateString: the rendered string. -/
def processTemplateString (s : String) (ctx : Js) : String :=
  (processTemplateStringW s ctx).1

/-- The output and warning count contributed by one parsed segment. -/
def renderSeg (ctx : Js) : Seg → String × Nat
  | .lit c => (String.singleton c, 0)
  | .ph full varRaw => templateVarCallback ctx full varRaw

/-- Concatenation of the per-segment outputs, summing warning counts. -/
def renderSegs (ctx : Js) (segs : List Seg) : String × Nat :=
  segs.foldr (fun seg out => ((renderSeg ctx seg).1 ++ out.1, (renderSeg ctx seg).2 + out.2))
    ("", 0)

/-- The verbatim source text of one parsed segment. -/
def segText : Seg → String
  | .lit c => String.singleton c
  | .ph full _ => full

/-- The concatenated source text of parsed segments. -/
def segsText (segs : List Seg) : String :=
  segs.foldr (fun seg out => segText seg ++ out) ""

/-- RequestTemplateManager.processTemplate, rendering steps (lines 93-120): a
clone of the stored template with the path (defaulted to the empty string when
falsy) substituted, query values and header values substituted when those maps
exist, and the body attached when truthy. -/
def renderTemplate (t : Template) (ctx : Js) (body : Option Js) : Template :=
  { t with
    path := some (processTemplateString (t.path.getD "") ctx),
    query := t.query.map (List.map (fun p => (p.1, processTemplateString p.2 ctx))),
    headers := t.headers.map (List.map (fun p => (p.1, processTemplateString p.2 ctx))),
    body := if jsOptTruthy body then body else t.body }

/-- RequestTemplateManager.processTemplate (lines 90-121): validate, then
render. -/
def processTemplate (tm : RequestTemplateManager) (name : String) (ctx : Js)
    (body : Option Js) : Except TemplateError Template :=
  (validateTemplate tm name).map (fun t => renderTemplate t ctx body)

/-- A received upstream HTTP response. -/
structure HttpResponse where
  status : Nat
  statusText : String
  headers : List (String × String)
  data : Js

/-- The outcome of the outbound call at the network level: either a response
was received (any status code) or the transport failed (timeout, DNS,
connection refused) with an error message. -/
inductive AxiosOutcome where
  | response (r : HttpResponse)
  | transportError (msg : String)

/-- The axios error message for a response rejected by the default
validateStatus. -/
def axiosHttpErrorMessage (status : Nat) : String :=
  "Request failed with status code " ++ toString status

/-- The axios promise semantics under the default validateStatus (resolve
exactly when 200 <= status < 300): a received non-2xx response rejects with an
error carrying the response; a transport failure rejects with an error
carrying no response. -/
def axiosSettle : AxiosOutcome → Except (String × Option HttpResponse) HttpResponse
  | .response r =>
      if 200 ≤ r.status ∧ r.status < 300 then .ok r
      else .error (axiosHttpErrorMessage r.status, some r)
  | .transportError msg => .error (msg, none)

/-- String.prototype.toLowerCase on the ASCII method names of the templates. -/
def jsToLower (s : String) : String :=
  String.mk (s.toList.map Char.toLower)

/-- URL assembly of the invoke-template handler (server.js lines 160-161):
protocol || https, then ://, host, and path || empty. -/
def buildInvokeUrl (pt : Template) : String :=
  (match pt.protocol with
   | some p => if p == "" then "https" else p
   | none => "https") ++ "://" ++ pt.host.getD "" ++ pt.path.getD ""

/-- The request configuration handed to axios (server.js lines 164-173):
lower-cased method, assembled URL, processed headers or an empty map, the
fixed 30 s timeout, and the body when truthy. -/
structure AxiosConfig where
  method : String
  url : String
  headers : List (String × String)
  timeout : Nat
  data : Option Js := none

/-- Builds the axiosConfig from a processed template. -/
def mkAxiosConfig (pt : Template) : AxiosConfig :=
  { method := jsToLower (pt.method.getD ""),
    url := buildInvokeUrl pt,
    headers := pt.headers.getD [],
    timeout := 30000,
    data := if jsOptTruthy pt.body then pt.body else none }

/-- The JSON reply of the /gateway/invoke-template handler together with the
HTTP status it is sent under. Absent JSON fields are none; requestId and the
measured duration are incidental and omitted. -/
structure InvokeReply where
  httpStatus : Nat
  success : Option Bool := none
  error : Option String := none
  status : Option Nat := none
  statusText : Option String := none
  headers : Option (List (String × String)) := none
  data : Option Js := none

/-- The POST /gateway/invoke-template handler (server.js lines 138-218).
Inputs: the parsed request-body fields and the outcome the network would give
were the outbound call made. Output: the reply and the axios config actually
dispatched (none when no outbound call is attempted). The try/catch sends any
thrown validation error down the no-response branch (HTTP 500 with the error
message); an axios rejection carrying a response takes the upstream-status
branch, which relays status, statusText and data but not the headers. -/
def invokeTemplateHandler (tm : RequestTemplateManager)
    (templateName : Option String) (context : Js) (body : Option Js)
    (outcome : AxiosOutcome) : InvokeReply × Option AxiosConfig :=
  if strFalsy templateName then
    ({ httpStatus := 400, error := some "Template name is required" }, none)
  else
    match processTemplate tm (templateName.getD "") context body with
    | .error e =>
        ({ httpStatus := 500, success := some false, error := some e.message }, none)
    | .ok pt =>
        let config := mkAxiosConfig pt
        match axiosSettle outcome with
        | .ok r =>
            ({ httpStatus := 200, success := some true, status := some r.status,
               statusText := some r.statusText, headers := some r.headers,
               data := some r.data }, some config)
        | .error (msg, some r) =>
            ({ httpStatus := r.status, success := some false, error := some msg,
               status := some r.status, statusText := some r.statusText,
               data := some r.data }, some config)
        | .error (msg, none) =>
            ({ httpStatus := 500, success := some false, error := some msg },
             some config)

/-- A proxy log entry (the object built by ApiProxyHandler.proxyRequest for
logRequest): origin and api key as received, the status when one was attached,
the duration when measured (the error path logs none), and the timestamp in
milliseconds since the epoch (the source stores an ISO string and re-parses it
in getStats). -/
structure LogEntry where
  method : String := ""
  path : String := ""
  origin : Option String := none
  apiKey : Option String := none
  status : Option Nat := none
  duration : Option Nat := none
  timestamp : Int := 0

/-- ApiProxyHandler.logRequest (lines 138-145): push, then keep only the last
1000 entries (Array.prototype.slice(-1000)). -/
def logRequest (log : List LogEntry) (entry : LogEntry) : List LogEntry :=
  let l := log ++ [entry]
  if 1000 < l.length then l.drop (l.length - 1000) else l

/-- An entry of the generic gateway request log fed by the morgan stream. -/
structure GatewayLogEntry where
  timestamp : String := ""
  message : String := ""

/-- The morgan stream of APIGatewayServer.setupMiddleware (server.js
lines 47-60): push, then a single shift once the length exceeds 100. -/
def pushGatewayLog (log : List GatewayLogEntry) (entry : GatewayLogEntry) :
    List GatewayLogEntry :=
  let l := log ++ [entry]
  if 100 < l.length then l.drop 1 else l

/-- Math.round on the exact value a / b (the source rounds averages and
percentages of small integer counters, where double rounding agrees with the
exact value): round half up. -/
def jsRound (a b : Nat) : Nat :=
  (2 * a + b) / (2 * b)

/-- A JavaScript string-or-default: the default replaces both an absent and an
empty (falsy) value. -/
def jsOrDefault (o : Option String) (d : String) : String :=
  match o with
  | some s => if s == "" then d else s
  | none => d

/-- The success test log.status < 400 of getStats: a missing status (an
undefined comparison) counts as a failure. -/
def statusSuccess (e : LogEntry) : Bool :=
  match e.status with
  | some s => s < 400
  | none => false

/-- The object key log.status || 500 of the statusCodes table: a missing (or
zero, hence falsy) status is keyed as 500. -/
def statusKey (e : LogEntry) : String :=
  toString (match e.status with
    | some s => if s = 0 then 500 else s
    | none => 500)

/-- Membership of a timestamp in the trailing one-hour window of getStats:
strictly newer than now minus one hour. -/
def inWindow (now : Int) (e : LogEntry) : Bool :=
  now - 60 * 60 * 1000 < e.timestamp

/-- The recentRequests filter of getStats (lines 152-154). -/
def recentEntries (log : List LogEntry) (now : Int) : List LogEntry :=
  log.filter (inWindow now)

/-- Frequency-table update (stats.top[key] = (stats.top[key] || 0) + 1):
increment in place, or append a fresh key with count one. -/
def bumpCount (tbl : List (String × Nat)) (k : String) : List (String × Nat) :=
  if tbl.any (fun p => p.1 == k) then
    tbl.map (fun p => if p.1 == k then (p.1, p.2 + 1) else p)
  else
    tbl ++ [(k, 1)]

/-- Frequency-table lookup with default zero. -/
def countOf (tbl : List (String × Nat)) (k : String) : Nat :=
  (((tbl.find? (fun p => p.1 == k)).map (·.2)).getD 0)

/-- The record returned by ApiProxyHandler.getStats. -/
structure ProxyStats where
  totalRequests : Nat
  recentRequests : Nat
  averageResponseTime : Nat
  successRate : Nat
  topOrigins : List (String × Nat)
  topApiKeys : List (String × Nat)
  statusCodes : List (String × Nat)

/-- ApiProxyHandler.getStats (lines 148-198), with the wall clock passed
explicitly. Over the entries of the trailing hour: the average divides the sum
of the truthy durations by the count of all in-window entries, the success
rate is the rounded percentage of entries with status below 400, and the
frequency tables key by origin (default unknown), api key (default none) and
status (default 500); every aggregate is zero or empty when no entry is in the
window. -/
def getStats (log : List LogEntry) (requestCount : Nat) (now : Int) : ProxyStats :=
  let recent := recentEntries log now
  let base : ProxyStats :=
    { totalRequests := requestCount, recentRequests := recent.length,
      averageResponseTime := 0, successRate := 0,
      topOrigins := [], topApiKeys := [], statusCodes := [] }
  if recent.length = 0 then base
  else
    let totalDuration :=
      ((recent.filter (fun e => e.duration.getD 0 != 0)).map (fun e => e.duration.getD 0)).sum
    let successCount := (recent.filter statusSuccess).length
    { base with
      averageResponseTime := jsRound totalDuration recent.length,
      successRate := jsRound (successCount * 100) recent.length,
      topOrigins :=
        recent.foldl (fun tbl e => bumpCount tbl (jsOrDefault e.origin "unknown")) [],
      topApiKeys :=
        recent.foldl (fun tbl e => bumpCount tbl (jsOrDefault e.apiKey "none")) [],
      statusCodes :=
        recent.foldl (fun tbl e => bumpCount tbl (statusKey e)) [] }

/-- One atom of the regular expression derived from a domain pattern: the
transformation pattern.replace(star, dot‑star) turns each star into the
Kleene star of the any-character class and keeps every other character as it
is; an unescaped dot in the pattern is therefore the any-character class. The
configured patterns (for example https://star.company.com with star spelled
out) contain no other regex metacharacter, so every remaining character is a
literal. -/
inductive RegexAtom where
  | lit (c : Char)
  | anyChar
  | starAny

/-- Translation of a domain pattern into the atoms of
new RegExp(pattern.replace(/\*/g, ".*")). -/
def patternAtoms (pattern : String) : List RegexAtom :=
  pattern.toList.map (fun c =>
    if c = '*' then .starAny else if c = '.' then .anyChar else .lit c)

/-- Does the atom sequence match some prefix of the input? -/
def matchesPrefixPart : List RegexAtom → List Char → Bool
  | [], _ => true
  | .lit c :: as, x :: s => x == c && matchesPrefixPart as s
  | .anyChar :: as, _ :: s => matchesPrefixPart as s
  | .starAny :: as, s =>
      matchesPrefixPart as s ||
        (match s with
         | [] => false
         | _ :: t => matchesPrefixPart (.starAny :: as) t)
  | _, [] => false
termination_by as s => (as.length, s.length)

/-- RegExp.prototype.test: the expression is unanchored, so the regex may
start matching at any position and stop before the end. -/
def regexTest (atoms : List RegexAtom) : List Char → Bool
  | [] => matchesPrefixPart atoms []
  | c :: t => matchesPrefixPart atoms (c :: t) || regexTest atoms t

/-- The configuration fields consulted by isOriginAllowed. -/
structure GatewayConfig where
  allowedOrigins : List String := []
  domainPatterns : List String := []

/-- APIGatewayServer.isOriginAllowed (server.js lines 272-283): exact
allow-list membership, otherwise some domain pattern's derived regex matches
somewhere in the origin. -/
def isOriginAllowed (config : GatewayConfig) (origin : String) : Bool :=
  config.allowedOrigins.contains origin ||
    config.domainPatterns.any (fun pattern =>
      regexTest (patternAtoms pattern) origin.toList)

/-- Anchored (full) match of regex atoms against a character list, the
specification-level semantics of the derived expressions. -/
inductive ExactMatch : List RegexAtom → List Char → Prop
  | nil : ExactMatch [] []
  | lit (c : Char) {as : List RegexAtom} {s : List Char} :
      ExactMatch as s → ExactMatch (.lit c :: as) (c :: s)
  | anyChar (c : Char) {as : List RegexAtom} {s : List Char} :
      ExactMatch as s → ExactMatch (.anyChar :: as) (c :: s)
  | starSkip {as : List RegexAtom} {s : List Char} :
      ExactMatch as s → ExactMatch (.starAny :: as) s
  | starCons (c : Char) {as : List RegexAtom} {s : List Char} :
      ExactMatch (.starAny :: as) s → ExactMatch (.starAny :: as) (c :: s)

/-- The template of the GET scenario: no protocol field. -/
def scenarioTemplate : Template :=
  { method := some "GET", host := some "localhost:8000", path := some "/api/test" }

/-- A manager whose store and manifest both hold the scenario template. -/
def scenarioManager : RequestTemplateManager :=
  { templates := [("backendTestApi", scenarioTemplate)],
    manifestTemplates := ["backendTestApi"] }

/-- The createTicket template of config/requests.json. -/
def createTicketTemplate : Template :=
  { method := some "POST", protocol := some "http", host := some "localhost:8000",
    path := some "/api/tickets",
    headers := some [("Authorization", "Bearer <%= context.apiKey %>"),
                     ("Content-Type", "application/json")] }

/-- A manager whose store and manifest both hold createTicket. -/
def createTicketManager : RequestTemplateManager :=
  { templates := [("createTicket", createTicketTemplate)],
    manifestTemplates := ["createTicket"] }

/-- Does the text begin with the opening marker of a placeholder? -/
def isMarkerHead : List Char → Bool
  | '<' :: '%' :: '=' :: _ => true
  | _ => false

/-- Does the text contain the opening marker of a placeholder anywhere? A
string without it is matched nowhere by the placeholder regex. -/
def containsMarkerStart : List Char → Bool
  | [] => false
  | c :: cs => isMarkerHead (c :: cs) || containsMarkerStart cs

/-- C5: validate(name) fails with TemplateNotFound exactly when the Template
Store has no entry for name; otherwise it fails with TemplateNotDeclared
exactly when name is not in the application's permission registry (so a stored
but undeclared template is always denied); otherwise it fails with a
TemplateMalformed error exactly when the template lacks a (truthy) method or
host field; otherwise it returns the stored template. -/
theorem validateTemplate_spec (tm : RequestTemplateManager) (name : String) :
    (validateTemplate tm name = .error (.notFound name) ↔ getTemplate tm name = none)
    ∧ (∀ t, getTemplate tm name = some t →
        (validateTemplate tm name = .error (.notDeclared name) ↔
          isTemplateDeclared tm name = false))
    ∧ (∀ t, getTemplate tm name = some t → isTemplateDeclared tm name = true →
        ((validateTemplate tm name = .error (.missingMethod name) ∨
          validateTemplate tm name = .error (.missingHost name)) ↔
          (strFalsy t.method || strFalsy t.host) = true))
    ∧ (∀ t, getTemplate tm name = some t →
        (validateTemplate tm name = .ok t ↔
          (isTemplateDeclared tm name && !strFalsy t.method && !strFalsy t.host) = true)) := by
  refine ⟨?_, ?_, ?_, ?_⟩
  · cases h : getTemplate tm name with
    | none => simp [validateTemplate, h]
    | some t =>
        simp only [validateTemplate, h]
        split_ifs <;> simp
  · intro t ht
    simp only [validateTemplate, ht]
    split_ifs <;> simp_all [isTemplateDeclared]
  · intro t ht hdecl
    simp only [validateTemplate, ht]
    split_ifs <;> simp_all
  · intro t ht
    simp only [validateTemplate, ht]
    split_ifs <;> simp_all

/-- Concrete instantiation of validateTemplate_spec: a template present in the
store but not declared in the manifest is rejected as not declared. -/
theorem validateTemplate_spec_witness :
    validateTemplate
        { templates := [("a", { method := some "GET", host := some "h" })],
          manifestTemplates := [] } "a" = .error (.notDeclared "a") := by
  have h := (validateTemplate_spec
      { templates := [("a", { method := some "GET", host := some "h" })],
        manifestTemplates := [] } "a").2.1
      { method := some "GET", host := some "h" } (by rfl)
  exact h.mpr (by rfl)

/-- Appending strings is appending their character lists. -/
theorem strMk_append (a b : List Char) : String.mk a ++ String.mk b = String.mk (a ++ b) :=
  rfl

/-- Rebuilding a string from its character list is the identity. -/
theorem strMk_toList (s : String) : String.mk s.toList = s :=
  rfl

/-- A successful placeholder match consumes at least one character. -/
theorem matchPlaceholder_tail_lt {cs : List Char} {f v : String} {t : List Char}
    (h : matchPlaceholder cs = some (f, v, t)) : t.length < cs.length := by
  unfold matchPlaceholder at h
  split at h
  next rest =>
    split at h
    next c0 cnt tail heq1 heq2 =>
      simp only [Option.some.injEq, Prod.mk.injEq] at h
      obtain ⟨-, -, rfl⟩ := h
      have hsplit := List.takeWhile_append_dropWhile
        (p := fun x => x != '%') (l := rest)
      have hlen := congrArg List.length hsplit
      rw [heq1, heq2] at hlen
      simp [List.length_append] at hlen ⊢
      omega
    next => exact absurd h (by simp)
  next => exact absurd h (by simp)

/-- A successful placeholder match reproduces the consumed text. -/
theorem matchPlaceholder_text {cs : List Char} {f v : String} {t : List Char}
    (h : matchPlaceholder cs = some (f, v, t)) : f ++ String.mk t = String.mk cs := by
  unfold matchPlaceholder at h
  split at h
  next rest =>
    split at h
    next c0 cnt tail heq1 heq2 =>
      simp only [Option.some.injEq, Prod.mk.injEq] at h
      obtain ⟨rfl, -, rfl⟩ := h
      have hsplit := List.takeWhile_append_dropWhile
        (p := fun x => x != '%') (l := rest)
      rw [heq1, heq2] at hsplit
      rw [show ("<%=" : String) = String.mk ['<', '%', '='] from rfl,
          show ("%>" : String) = String.mk ['%', '>'] from rfl,
          strMk_append, strMk_append, strMk_append, ← hsplit]
      simp
    next => exact absurd h (by simp)
  next => exact absurd h (by simp)

/-- Without the opening marker at the head, the placeholder pattern cannot
match there. -/
theorem matchPlaceholder_eq_none {cs : List Char} (h : isMarkerHead cs = false) :
    matchPlaceholder cs = none := by
  unfold matchPlaceholder
  split
  next rest => simp [isMarkerHead] at h
  next => rfl

/-- Unfolding lemma for renderSegs on a cons. -/
theorem renderSegs_cons (ctx : Js) (s : Seg) (ss : List Seg) :
    renderSegs ctx (s :: ss) =
      ((renderSeg ctx s).1 ++ (renderSegs ctx ss).1,
       (renderSeg ctx s).2 + (renderSegs ctx ss).2) :=
  rfl

/-- Rendering all-literal segments reproduces the text with no warnings. -/
theorem renderSegs_lits (ctx : Js) : ∀ l : List Char,
    renderSegs ctx (l.map Seg.lit) = (String.mk l, 0) := by
  intro l
  induction l with
  | nil => rfl
  | cons c l ih =>
      simp only [List.map_cons, renderSegs_cons, ih, renderSeg]
      rfl

/-- The scan-and-replace loop factors through parsing: the output is the
concatenation of independently rendered segments, warnings summed. -/
theorem procGoF_eq_renderSegs (ctx : Js) :
    ∀ (fuel : Nat) (cs : List Char),
      procGoF ctx fuel cs = renderSegs ctx (parseSegsF fuel cs) := by
  intro fuel
  induction fuel with
  | zero =>
      intro cs
      cases cs with
      | nil => rfl
      | cons c cs =>
          simp only [procGoF, parseSegsF]
          exact (renderSegs_lits ctx (c :: cs)).symm
  | succ fuel ih =>
      intro cs
      cases cs with
      | nil => rfl
      | cons c cs =>
          simp only [procGoF, parseSegsF]
          cases hm : matchPlaceholder (c :: cs) with
          | some x =>
              obtain ⟨full, vr, tail⟩ := x
              simp [renderSegs_cons, ih, renderSeg]
          | none =>
              simp [renderSegs_cons, ih, renderSeg]

/-- Rendering all-literal segments concatenates back to the text. -/
theorem segsText_lits : ∀ l : List Char, segsText (l.map Seg.lit) = String.mk l := by
  intro l
  induction l with
  | nil => rfl
  | cons c l ih =>
      show segText (Seg.lit c) ++ segsText (l.map Seg.lit) = String.mk (c :: l)
      rw [ih]
      rfl

/-- The parsed segments concatenate back to the exact input text. -/
theorem segsText_parseSegsF :
    ∀ (fuel : Nat) (cs : List Char), segsText (parseSegsF fuel cs) = String.mk cs := by
  intro fuel
  induction fuel with
  | zero =>
      intro cs
      cases cs with
      | nil => rfl
      | cons c cs =>
          simp only [parseSegsF]
          exact segsText_lits (c :: cs)
  | succ fuel ih =>
      intro cs
      cases cs with
      | nil => rfl
      | cons c cs =>
          simp only [parseSegsF]
          cases hm : matchPlaceholder (c :: cs) with
          | some x =>
              obtain ⟨full, vr, tail⟩ := x
              show segText (.ph full vr) ++ segsText (parseSegsF fuel tail) = _
              rw [segText, ih tail]
              exact matchPlaceholder_text hm
          | none =>
              show segText (.lit c) ++ segsText (parseSegsF fuel cs) = _
              rw [segText, ih cs]
              rfl

/-- Fuel equal to the remaining length never runs out: the scan consumes at
least one character per step, so any sufficient fuel parses identically. -/
theorem parseSegsF_fuel_irrel :
    ∀ (fuel : Nat) (cs : List Char), cs.length ≤ fuel →
      parseSegsF fuel cs = parseSegs cs := by
  intro fuel
  induction fuel using Nat.strong_induction_on with
  | _ fuel ih =>
      intro cs hlen
      cases cs with
      | nil => cases fuel <;> rfl
      | cons c cs0 =>
          cases fuel with
          | zero => simp at hlen
          | succ f =>
              have hlen2 : cs0.length + 1 ≤ f + 1 := by simpa using hlen
              show parseSegsF (f + 1) (c :: cs0) = parseSegsF (c :: cs0).length (c :: cs0)
              simp only [List.length_cons, parseSegsF]
              cases hm : matchPlaceholder (c :: cs0) with
              | some x =>
                  obtain ⟨full, vr, tail⟩ := x
                  have htail : tail.length < cs0.length + 1 := by
                    simpa using matchPlaceholder_tail_lt hm
                  dsimp only
                  congr 1
                  rw [ih f (by omega) tail (by omega)]
                  rw [ih cs0.length (by omega) tail (by omega)]
              | none =>
                  dsimp only
                  congr 1
                  exact ih f (by omega) cs0 (by omega)

/-- A text without the opening marker is scanned to itself, with no warning. -/
theorem procGoF_no_marker (ctx : Js) :
    ∀ (fuel : Nat) (cs : List Char), containsMarkerStart cs = false →
      procGoF ctx fuel cs = (String.mk cs, 0) := by
  intro fuel
  induction fuel with
  | zero =>
      intro cs h
      cases cs <;> rfl
  | succ f ih =>
      intro cs h
      cases cs with
      | nil => rfl
      | cons c cs0 =>
          simp only [containsMarkerStart, Bool.or_eq_false_iff] at h
          obtain ⟨h1, h2⟩ := h
          simp only [procGoF, matchPlaceholder_eq_none h1, ih cs0 h2]
          rfl

/-- processTemplateString is the identity on marker-free strings. -/
theorem processTemplateString_no_marker (s : String) (ctx : Js)
    (h : containsMarkerStart s.toList = false) :
    processTemplateString s ctx = s := by
  unfold processTemplateString processTemplateStringW
  rw [procGoF_no_marker ctx _ _ h]
  rfl

/-- C4: for every template string and context, rendering is total (the
embedding is a function, never an exception); the scan-and-replace equals
parsing into segments that do not depend on the context and rendering each
segment independently of the others; the parsed segments concatenate back to
the exact input; and a placeholder whose dotted path fails to resolve against
the context is kept verbatim — its full text, <%= %> markers included — with
exactly one warning, never a partial substitution. -/
theorem processTemplateString_spec :
    (∀ (s : String) (ctx : Js),
        processTemplateStringW s ctx = renderSegs ctx (parseSegs s.toList))
    ∧ (∀ s : String, segsText (parseSegs s.toList) = s)
    ∧ (∀ (ctx : Js) (full vr : String),
        resolvePath ctx (splitOnDot (jsTrim vr.toList)) = none →
        renderSeg ctx (.ph full vr) = (full, 1)) := by
  refine ⟨?_, ?_, ?_⟩
  · intro s ctx
    exact procGoF_eq_renderSegs ctx s.toList.length s.toList
  · intro s
    rw [parseSegs, segsText_parseSegsF, strMk_toList]
  · intro ctx full vr h
    have h2 : resolvePath ctx (splitOnDot (jsTrim vr.data)) = none := h
    simp [renderSeg, templateVarCallback, h2]

/-- Concrete instantiation of processTemplateString_spec: with an empty
context, the placeholder of /users/<%= context.userId %> does not resolve and
its segment renders to its own text with one warning. -/
theorem processTemplateString_spec_witness :
    resolvePath (Js.obj []) (splitOnDot (jsTrim " context.userId ".toList)) = none ∧
    renderSeg (Js.obj []) (.ph "<%= context.userId %>" " context.userId ") =
      ("<%= context.userId %>", 1) :=
  ⟨rfl, processTemplateString_spec.2.2 (Js.obj []) "<%= context.userId %>"
    " context.userId " rfl⟩

/-- C9 counterexample: a stored template with no path field (its string fields
trivially contain no markers) is not returned unchanged — rendering adds
path equal to the empty string. -/
theorem renderTemplate_counterexample :
    renderTemplate { method := some "GET", host := some "h" } (Js.obj []) none ≠
      { method := some "GET", host := some "h" } := by
  intro h
  have hp := congrArg Template.path h
  simp [renderTemplate] at hp

/-- C9 amended: for every template that carries a path field and whose string
fields (path, header values, query values) contain no placeholder marker, and
for every context, rendering returns the template unchanged. (A template
without a path field instead gains path equal to the empty string, see the
counterexample.) -/
theorem renderTemplate_id_of_no_markers (t : Template) (ctx : Js) (p : String)
    (hp : t.path = some p) (hpm : containsMarkerStart p.toList = false)
    (hh : ∀ kv ∈ t.headers.getD [], containsMarkerStart kv.2.toList = false)
    (hq : ∀ kv ∈ t.query.getD [], containsMarkerStart kv.2.toList = false) :
    renderTemplate t ctx none = t := by
  have hpath : some (processTemplateString (t.path.getD "") ctx) = t.path := by
    rw [hp, Option.getD_some, processTemplateString_no_marker p ctx hpm]
  have hq2 : t.query.map (List.map fun pr => (pr.1, processTemplateString pr.2 ctx)) =
      t.query := by
    cases hqq : t.query with
    | none => rfl
    | some q =>
        rw [hqq] at hq
        simp only [Option.map_some', Option.some.injEq]
        conv_rhs => rw [← List.map_id q]
        refine List.map_congr_left ?_
        intro pr hpr
        rw [processTemplateString_no_marker pr.2 ctx (hq pr (by simpa using hpr))]
        rfl
  have hh2 : t.headers.map (List.map fun pr => (pr.1, processTemplateString pr.2 ctx)) =
      t.headers := by
    cases hhh : t.headers with
    | none => rfl
    | some hs =>
        rw [hhh] at hh
        simp only [Option.map_some', Option.some.injEq]
        conv_rhs => rw [← List.map_id hs]
        refine List.map_congr_left ?_
        intro pr hpr
        rw [processTemplateString_no_marker pr.2 ctx (hh pr (by simpa using hpr))]
        rfl
  unfold renderTemplate
  rw [hpath, hq2, hh2]
  rfl

/-- Concrete instantiation of renderTemplate_id_of_no_markers: a marker-free
template with a path renders to itself. -/
theorem renderTemplate_id_witness :
    renderTemplate
        { method := some "GET", host := some "h", path := some "/api/test",
          headers := some [("Content-Type", "application/json")] }
        (Js.obj [("x", Js.str "1")]) none =
      { method := some "GET", host := some "h", path := some "/api/test",
        headers := some [("Content-Type", "application/json")] } :=
  renderTemplate_id_of_no_markers _ _ "/api/test" rfl (by decide)
    (by decide) (by decide)

/-- C3: evaluating the code at the claimed scenario. The createTicket template
invoked with context apiKey k1 and body title T renders the Authorization
header to the literal text Bearer <%= context.apiKey %> — not Bearer k1 — and
one not-found warning fires, because the walk looks the first path segment,
the word context itself, up inside the caller context object. The body is
attached as claimed. -/
theorem createTicket_header_left_verbatim :
    processTemplate createTicketManager "createTicket"
        (Js.obj [("apiKey", Js.str "k1")]) (some (Js.obj [("title", Js.str "T")])) =
      .ok { createTicketTemplate with
            headers := some [("Authorization", "Bearer <%= context.apiKey %>"),
                             ("Content-Type", "application/json")],
            body := some (Js.obj [("title", Js.str "T")]) } ∧
    processTemplateStringW "Bearer <%= context.apiKey %>"
        (Js.obj [("apiKey", Js.str "k1")]) =
      ("Bearer <%= context.apiKey %>", 1) :=
  ⟨rfl, rfl⟩

/-- C1 counterexample: a received 404 response makes the invoke-template
handler reply with a failure result, refuting the claim that every received
response — any status code — yields a success result; axios rejects non-2xx
responses under its default validation, so the handler's catch branch runs. -/
theorem invoke_404_counterexample :
    ((invokeTemplateHandler scenarioManager (some "backendTestApi") (Js.obj []) none
        (.response { status := 404, statusText := "Not Found", headers := [],
                     data := Js.null })).1).success = some false ∧
    ¬ (((invokeTemplateHandler scenarioManager (some "backendTestApi") (Js.obj []) none
        (.response { status := 404, statusText := "Not Found", headers := [],
                     data := Js.null })).1).success = some true) :=
  ⟨rfl, by decide⟩

/-- C1 amended: once validation succeeds, invoke returns a success result
carrying the upstream status, headers and body exactly for responses accepted
by axios's default validation (status in [200, 300)); a received response
outside that range yields a failure result that still relays the upstream
status (as the reply status field and the HTTP status) and body together with
the axios error message, but not the headers; a transport failure yields an
HTTP 500 failure result carrying the transport error message. In every case
the outbound request was dispatched. -/
theorem invoke_outcome_spec (tm : RequestTemplateManager) (name : String)
    (ctx : Js) (body : Option Js) (pt : Template)
    (hname : strFalsy (some name) = false)
    (hok : processTemplate tm name ctx body = .ok pt) :
    (∀ r : HttpResponse, 200 ≤ r.status → r.status < 300 →
        invokeTemplateHandler tm (some name) ctx body (.response r) =
          ({ httpStatus := 200, success := some true, status := some r.status,
             statusText := some r.statusText, headers := some r.headers,
             data := some r.data }, some (mkAxiosConfig pt)))
    ∧ (∀ r : HttpResponse, ¬ (200 ≤ r.status ∧ r.status < 300) →
        invokeTemplateHandler tm (some name) ctx body (.response r) =
          ({ httpStatus := r.status, success := some false,
             error := some (axiosHttpErrorMessage r.status),
             status := some r.status, statusText := some r.statusText,
             data := some r.data }, some (mkAxiosConfig pt)))
    ∧ (∀ msg : String,
        invokeTemplateHandler tm (some name) ctx body (.transportError msg) =
          ({ httpStatus := 500, success := some false, error := some msg },
           some (mkAxiosConfig pt))) := by
  refine ⟨?_, ?_, ?_⟩
  · intro r h1 h2
    have hs : axiosSettle (.response r) = .ok r := by
      simp [axiosSettle, h1, h2]
    simp [invokeTemplateHandler, hname, hok, hs]
  · intro r h
    have hs : axiosSettle (.response r) =
        .error (axiosHttpErrorMessage r.status, some r) := by
      simp [axiosSettle, h]
    simp [invokeTemplateHandler, hname, hok, hs]
  · intro msg
    have hs : axiosSettle (.transportError msg) = .error (msg, none) := rfl
    simp [invokeTemplateHandler, hname, hok, hs]

/-- Concrete instantiation of invoke_outcome_spec: the scenario template with
a transport timeout yields the 500 failure reply carrying the message, with
the request dispatched. -/
theorem invoke_outcome_spec_witness :
    strFalsy (some "backendTestApi") = false ∧
    processTemplate scenarioManager "backendTestApi" (Js.obj []) none =
      .ok (renderTemplate scenarioTemplate (Js.obj []) none) ∧
    invokeTemplateHandler scenarioManager (some "backendTestApi") (Js.obj []) none
        (.transportError "timeout of 30000ms exceeded") =
      ({ httpStatus := 500, success := some false,
         error := some "timeout of 30000ms exceeded" },
       some (mkAxiosConfig (renderTemplate scenarioTemplate (Js.obj []) none))) :=
  ⟨rfl, rfl,
    (invoke_outcome_spec scenarioManager "backendTestApi" (Js.obj []) none
        (renderTemplate scenarioTemplate (Js.obj []) none) rfl rfl).2.2
      "timeout of 30000ms exceeded"⟩

/-- C2: for a template name absent from the store the handler replies with the
not-found error result, and for a stored but undeclared name with the
not-declared error result; in both cases no outbound request is dispatched
(the second component is none), whatever the network would have answered —
the validator throws before the axios call. -/
theorem invoke_no_network_on_validation_failure
    (tm : RequestTemplateManager) (name : String) (ctx : Js) (body : Option Js)
    (outcome : AxiosOutcome) (hname : strFalsy (some name) = false) :
    (getTemplate tm name = none →
      invokeTemplateHandler tm (some name) ctx body outcome =
        ({ httpStatus := 500, success := some false,
           error := some (TemplateError.message (.notFound name)) }, none))
    ∧ (∀ t, getTemplate tm name = some t → isTemplateDeclared tm name = false →
      invokeTemplateHandler tm (some name) ctx body outcome =
        ({ httpStatus := 500, success := some false,
           error := some (TemplateError.message (.notDeclared name)) }, none)) := by
  constructor
  · intro h
    have hv : processTemplate tm name ctx body = .error (.notFound name) := by
      simp [processTemplate, validateTemplate, h, Except.map]
    simp [invokeTemplateHandler, hname, hv]
  · intro t ht hdecl
    have hv : processTemplate tm name ctx body = .error (.notDeclared name) := by
      simp [processTemplate, validateTemplate, ht, hdecl, Except.map]
    simp [invokeTemplateHandler, hname, hv]

/-- Concrete instantiation of invoke_no_network_on_validation_failure: the
name unknown against an empty store yields the not-found failure reply and no
outbound request, even though the network stood ready with a 200. -/
theorem invoke_no_network_witness :
    getTemplate { templates := [], manifestTemplates := [] } "unknown" = none ∧
    invokeTemplateHandler { templates := [], manifestTemplates := [] }
        (some "unknown") (Js.obj []) none
        (.response { status := 200, statusText := "OK", headers := [],
                     data := Js.null }) =
      ({ httpStatus := 500, success := some false,
         error := some (TemplateError.message (.notFound "unknown")) }, none) :=
  ⟨rfl,
    (invoke_no_network_on_validation_failure
        { templates := [], manifestTemplates := [] } "unknown" (Js.obj []) none
        (.response { status := 200, statusText := "OK", headers := [],
                     data := Js.null }) rfl).1 rfl⟩

/-- C6 counterexample: with no protocol field in the template, the dispatched
URL is not the claimed http://localhost:8000/api/test — the protocol defaults
to https. -/
theorem invoke_scenario_url_counterexample :
    ((invokeTemplateHandler scenarioManager (some "backendTestApi") (Js.obj []) none
        (.response { status := 200, statusText := "OK", headers := [],
                     data := Js.obj [("message", Js.str "ok")] })).2.map
      (fun c => c.url)) ≠ some "http://localhost:8000/api/test" := by
  decide

/-- C6 amended: the scenario template (GET, host localhost:8000, path
/api/test, no protocol), declared and invoked with an empty context, makes the
Dispatcher issue GET https://localhost:8000/api/test (the protocol defaults to
https when unspecified), and a 200 JSON response message ok is returned as a
success result with status 200 and that data. -/
theorem invoke_scenario_https :
    invokeTemplateHandler scenarioManager (some "backendTestApi") (Js.obj []) none
        (.response { status := 200, statusText := "OK", headers := [],
                     data := Js.obj [("message", Js.str "ok")] }) =
      ({ httpStatus := 200, success := some true, status := some 200,
         statusText := some "OK", headers := some [],
         data := some (Js.obj [("message", Js.str "ok")]) },
       some { method := "get", url := "https://localhost:8000/api/test",
              headers := [], timeout := 30000, data := none }) :=
  rfl

/-- Frequency lookup on an empty table. -/
theorem countOf_nil (k : String) : countOf [] k = 0 :=
  rfl

/-- Frequency lookup steps through the head entry. -/
theorem countOf_cons (x : String × Nat) (tbl : List (String × Nat)) (k : String) :
    countOf (x :: tbl) k = if x.1 == k then x.2 else countOf tbl k := by
  simp only [countOf, List.find?]
  cases h : x.1 == k <;> simp [h]

/-- Bumping one key leaves the counts of other keys unchanged. -/
theorem countOf_mapBump_ne (k0 k : String) (hne : (k0 == k) = false) :
    ∀ tbl : List (String × Nat),
      countOf (tbl.map (fun p => if p.1 == k0 then (p.1, p.2 + 1) else p)) k =
        countOf tbl k := by
  intro tbl
  induction tbl with
  | nil => rfl
  | cons q tbl ih =>
      have hfst : (if q.1 == k0 then (q.1, q.2 + 1) else q).1 = q.1 := by
        split <;> rfl
      rw [List.map_cons, countOf_cons, countOf_cons, hfst, ih]
      cases hq : q.1 == k0
      · simp [hq]
      · have hq1 : q.1 = k0 := by simpa using hq
        have : (q.1 == k) = false := by rw [hq1]; exact hne
        simp [hq, this]

/-- Bumping a key present in the table raises its count by one. -/
theorem countOf_mapBump_mem (k0 : String) :
    ∀ tbl : List (String × Nat), tbl.any (fun p => p.1 == k0) = true →
      countOf (tbl.map (fun p => if p.1 == k0 then (p.1, p.2 + 1) else p)) k0 =
        countOf tbl k0 + 1 := by
  intro tbl
  induction tbl with
  | nil => intro h; simp at h
  | cons q tbl ih =>
      intro h
      have hfst : (if q.1 == k0 then (q.1, q.2 + 1) else q).1 = q.1 := by
        split <;> rfl
      rw [List.map_cons, countOf_cons, countOf_cons, hfst]
      cases hq : q.1 == k0
      · have h2 : tbl.any (fun p => p.1 == k0) = true := by
          simp only [List.any_cons, hq, Bool.false_or] at h
          exact h
        simp only [Bool.false_eq_true, if_false]
        exact ih h2
      · simp [hq]

/-- Appending a fresh singleton entry adds one to its key when that key is
absent, and changes nothing else. -/
theorem countOf_append_single (k0 k : String) :
    ∀ tbl : List (String × Nat),
      countOf (tbl ++ [(k0, 1)]) k =
        countOf tbl k +
          (if (k0 == k) = true ∧ tbl.any (fun p => p.1 == k) = false then 1 else 0) := by
  intro tbl
  induction tbl with
  | nil =>
      rw [List.nil_append, countOf_cons, countOf_nil]
      cases hk : k0 == k <;> simp [hk]
  | cons q tbl ih =>
      rw [List.cons_append, countOf_cons, countOf_cons, ih]
      cases hq : q.1 == k
      · simp only [List.any_cons, hq, Bool.false_or, Bool.false_eq_true, if_false]
      · simp only [List.any_cons, hq, Bool.true_or, if_true]
        simp

/-- The effect of one bumpCount step on every count. -/
theorem countOf_bumpCount (tbl : List (String × Nat)) (k0 k : String) :
    countOf (bumpCount tbl k0) k = countOf tbl k + (if k0 == k then 1 else 0) := by
  unfold bumpCount
  cases hmem : tbl.any (fun p => p.1 == k0)
  · rw [if_neg (by simp), countOf_append_single]
    cases hk : k0 == k
    · simp [hk]
    · have hkk : k0 = k := by simpa using hk
      subst hkk
      simp [hmem]
  · rw [if_pos rfl]
    cases hk : k0 == k
    · rw [countOf_mapBump_ne k0 k hk tbl]
      simp [hk]
    · have hkk : k0 = k := by simpa using hk
      subst hkk
      rw [countOf_mapBump_mem k0 tbl hmem]
      simp

/-- Folding bumpCount over entries counts, for every key, the entries mapped
to that key. -/
theorem countOf_foldl_bump (key : LogEntry → String) :
    ∀ (l : List LogEntry) (tbl : List (String × Nat)) (k : String),
      countOf (l.foldl (fun t e => bumpCount t (key e)) tbl) k =
        countOf tbl k + (l.filter (fun e => key e == k)).length := by
  intro l
  induction l with
  | nil => intro tbl k; simp
  | cons e l ih =>
      intro tbl k
      rw [List.foldl_cons, ih, countOf_bumpCount, List.filter_cons]
      cases hk : key e == k
      · simp [hk]
      · simp [hk]
        omega

/-- The trailing-window filter is idempotent. -/
theorem recentEntries_idem (log : List LogEntry) (now : Int) :
    recentEntries (recentEntries log now) now = recentEntries log now := by
  simp [recentEntries, List.filter_filter]

/-- C7: getStats aggregates only over entries inside the trailing window —
replacing the log by its in-window entries changes nothing; the success rate
is the rounded percentage of in-window entries with status below 400, a
missing status counting as failure; the average duration is 0 when no truthy
duration is present in the window; and the frequency tables count, for every
key, exactly the in-window entries with that origin, caller api key or status
code. Entries outside the window contribute to none of these. -/
theorem getStats_spec (log : List LogEntry) (requestCount : Nat) (now : Int) :
    (getStats log requestCount now = getStats (recentEntries log now) requestCount now)
    ∧ ((getStats log requestCount now).successRate =
        if (recentEntries log now).length = 0 then 0
        else jsRound (((recentEntries log now).filter statusSuccess).length * 100)
          (recentEntries log now).length)
    ∧ ((∀ e ∈ recentEntries log now, e.duration.getD 0 = 0) →
        (getStats log requestCount now).averageResponseTime = 0)
    ∧ (∀ k, countOf ((getStats log requestCount now).topOrigins) k =
        ((recentEntries log now).filter
          (fun e => jsOrDefault e.origin "unknown" == k)).length)
    ∧ (∀ k, countOf ((getStats log requestCount now).topApiKeys) k =
        ((recentEntries log now).filter
          (fun e => jsOrDefault e.apiKey "none" == k)).length)
    ∧ (∀ k, countOf ((getStats log requestCount now).statusCodes) k =
        ((recentEntries log now).filter (fun e => statusKey e == k)).length) := by
  refine ⟨?_, ?_, ?_, ?_, ?_, ?_⟩
  · simp only [getStats, recentEntries_idem]
  · by_cases h0 : (recentEntries log now).length = 0
    · simp [getStats, h0]
    · simp only [getStats]
      rw [if_neg h0, if_neg h0]
  · intro hdur
    by_cases h0 : (recentEntries log now).length = 0
    · simp [getStats, h0]
    · have hfil : (recentEntries log now).filter (fun e => e.duration.getD 0 != 0) = [] := by
        rw [List.filter_eq_nil_iff]
        intro e he
        simp [hdur e he]
      simp only [getStats]
      rw [if_neg h0]
      simp only [hfil, List.map_nil, List.sum_nil]
      show jsRound 0 (recentEntries log now).length = 0
      unfold jsRound
      have hpos : 0 < (recentEntries log now).length := Nat.pos_of_ne_zero h0
      rw [Nat.mul_zero, Nat.zero_add]
      exact Nat.div_eq_of_lt (by omega)
  · intro k
    by_cases h0 : (recentEntries log now).length = 0
    · have hnil : recentEntries log now = [] := List.length_eq_zero.mp h0
      simp [getStats, h0, hnil, countOf_nil]
    · simp only [getStats]
      rw [if_neg h0]
      have h := countOf_foldl_bump (fun e => jsOrDefault e.origin "unknown")
        (recentEntries log now) [] k
      simpa [countOf_nil] using h
  · intro k
    by_cases h0 : (recentEntries log now).length = 0
    · have hnil : recentEntries log now = [] := List.length_eq_zero.mp h0
      simp [getStats, h0, hnil, countOf_nil]
    · simp only [getStats]
      rw [if_neg h0]
      have h := countOf_foldl_bump (fun e => jsOrDefault e.apiKey "none")
        (recentEntries log now) [] k
      simpa [countOf_nil] using h
  · intro k
    by_cases h0 : (recentEntries log now).length = 0
    · have hnil : recentEntries log now = [] := List.length_eq_zero.mp h0
      simp [getStats, h0, hnil, countOf_nil]
    · simp only [getStats]
      rw [if_neg h0]
      have h := countOf_foldl_bump statusKey (recentEntries log now) [] k
      simpa [countOf_nil] using h

/-- Concrete instantiation of getStats_spec: a window holding one entry with
no measured duration (plus one stale entry with a duration, outside the
window) has average response time 0. -/
theorem getStats_spec_witness :
    (∀ e ∈ recentEntries
        [{ status := some 200, timestamp := 100 },
         { status := some 500, duration := some 7, timestamp := -10000000 }] 100,
      e.duration.getD 0 = 0) ∧
    (getStats
        [{ status := some 200, timestamp := 100 },
         { status := some 500, duration := some 7, timestamp := -10000000 }]
        2 100).averageResponseTime = 0 :=
  ⟨by decide,
    (getStats_spec
        [{ status := some 200, timestamp := 100 },
         { status := some 500, duration := some 7, timestamp := -10000000 }]
        2 100).2.2.1 (by decide)⟩

/-- The proxy log fold keeps exactly the trailing 1000 entries. -/
theorem foldl_logRequest_eq (es : List LogEntry) :
    es.foldl logRequest [] = es.drop (es.length - 1000) := by
  induction es using List.reverseRecOn with
  | nil => rfl
  | append_singleton es e ih =>
      rw [List.foldl_append, List.foldl_cons, List.foldl_nil, ih]
      unfold logRequest
      dsimp only
      have hdlen : (es.drop (es.length - 1000)).length = min es.length 1000 := by
        rw [List.length_drop]; omega
      have hlen2 : (es.drop (es.length - 1000) ++ [e]).length = min es.length 1000 + 1 := by
        simp [List.length_append, hdlen]
      rw [hlen2]
      have hL : (es ++ [e]).length = es.length + 1 := by simp
      by_cases hn : 1000 ≤ es.length
      · rw [if_pos (by omega)]
        have h1 : min es.length 1000 + 1 - 1000 = 1 := by omega
        rw [h1, hL, List.drop_append_of_le_length (by rw [hdlen]; omega),
          List.drop_drop, List.drop_append_of_le_length (by omega)]
        have h3 : es.length - 1000 + 1 = es.length + 1 - 1000 := by omega
        rw [h3]
      · rw [if_neg (by omega)]
        have h1 : es.length - 1000 = 0 := by omega
        have h2 : es.length + 1 - 1000 = 0 := by omega
        rw [h1, hL, h2]
        simp

/-- The morgan log fold keeps exactly the trailing 100 entries. -/
theorem foldl_pushGatewayLog_eq (gs : List GatewayLogEntry) :
    gs.foldl pushGatewayLog [] = gs.drop (gs.length - 100) := by
  induction gs using List.reverseRecOn with
  | nil => rfl
  | append_singleton gs e ih =>
      rw [List.foldl_append, List.foldl_cons, List.foldl_nil, ih]
      unfold pushGatewayLog
      dsimp only
      have hdlen : (gs.drop (gs.length - 100)).length = min gs.length 100 := by
        rw [List.length_drop]; omega
      have hlen2 : (gs.drop (gs.length - 100) ++ [e]).length = min gs.length 100 + 1 := by
        simp [List.length_append, hdlen]
      rw [hlen2]
      have hL : (gs ++ [e]).length = gs.length + 1 := by simp
      by_cases hn : 100 ≤ gs.length
      · rw [if_pos (by omega)]
        rw [hL, List.drop_append_of_le_length (by rw [hdlen]; omega),
          List.drop_drop, List.drop_append_of_le_length (by omega)]
        have h3 : gs.length - 100 + 1 = gs.length + 1 - 100 := by omega
        rw [h3]
      · rw [if_neg (by omega)]
        have h1 : gs.length - 100 = 0 := by omega
        have h2 : gs.length + 1 - 100 = 0 := by omega
        rw [h1, hL, h2]
        simp

/-- C8: starting from the empty log, after every sequence of appends the proxy
request log holds at most 1000 entries and the generic gateway log at most
100; each log equals exactly the trailing segment of everything appended, so
on overflow the oldest entries are the ones evicted and FIFO order is
preserved. -/
theorem requestLog_capacity_fifo :
    (∀ es : List LogEntry,
        (es.foldl logRequest []).length ≤ 1000 ∧
        es.foldl logRequest [] = es.drop (es.length - 1000))
    ∧ (∀ gs : List GatewayLogEntry,
        (gs.foldl pushGatewayLog []).length ≤ 100 ∧
        gs.foldl pushGatewayLog [] = gs.drop (gs.length - 100)) := by
  constructor
  · intro es
    refine ⟨?_, foldl_logRequest_eq es⟩
    rw [foldl_logRequest_eq es, List.length_drop]
    omega
  · intro gs
    refine ⟨?_, foldl_pushGatewayLog_eq gs⟩
    rw [foldl_pushGatewayLog_eq gs, List.length_drop]
    omega

/-- An exact match of the atoms against m lets the atoms match the prefix m
of any extension of m. -/
theorem exactMatch_matchesPrefixPart {as : List RegexAtom} {m : List Char}
    (h : ExactMatch as m) : ∀ suf : List Char, matchesPrefixPart as (m ++ suf) = true := by
  induction h with
  | nil =>
      intro suf
      simp [matchesPrefixPart]
  | lit c h ih =>
      intro suf
      simp [List.cons_append, matchesPrefixPart, ih suf]
  | anyChar c h ih =>
      intro suf
      simp [List.cons_append, matchesPrefixPart, ih suf]
  | @starSkip as s h ih =>
      intro suf
      have hleft := ih suf
      cases hs : s ++ suf with
      | nil =>
          rw [hs] at hleft
          simp [matchesPrefixPart, hleft]
      | cons y ys =>
          rw [hs] at hleft
          simp [matchesPrefixPart, hleft]
  | starCons c h ih =>
      intro suf
      simp [List.cons_append, matchesPrefixPart, ih suf]

/-- A successful prefix match decomposes the input into a fully matched part
and a remainder. -/
theorem matchesPrefixPart_decomp :
    ∀ (n : Nat) (as : List RegexAtom) (s : List Char), as.length + s.length ≤ n →
      matchesPrefixPart as s = true →
      ∃ m suf, s = m ++ suf ∧ ExactMatch as m := by
  intro n
  induction n with
  | zero =>
      intro as s hn h
      cases as with
      | nil => exact ⟨[], s, rfl, .nil⟩
      | cons a as0 => simp at hn
  | succ n ih =>
      intro as s hn h
      cases as with
      | nil => exact ⟨[], s, rfl, .nil⟩
      | cons a as0 =>
          cases a with
          | lit c =>
              cases s with
              | nil => simp [matchesPrefixPart] at h
              | cons x s0 =>
                  simp only [matchesPrefixPart, Bool.and_eq_true, beq_iff_eq] at h
                  obtain ⟨hx, hrec⟩ := h
                  subst hx
                  obtain ⟨m, suf, rfl, hex⟩ :=
                    ih as0 s0 (by simp only [List.length_cons] at hn; omega) hrec
                  exact ⟨x :: m, suf, rfl, .lit x hex⟩
          | anyChar =>
              cases s with
              | nil => simp [matchesPrefixPart] at h
              | cons x s0 =>
                  simp only [matchesPrefixPart] at h
                  obtain ⟨m, suf, rfl, hex⟩ :=
                    ih as0 s0 (by simp only [List.length_cons] at hn; omega) h
                  exact ⟨x :: m, suf, rfl, .anyChar x hex⟩
          | starAny =>
              cases s with
              | nil =>
                  simp only [matchesPrefixPart, Bool.or_false] at h
                  obtain ⟨m, suf, hms, hex⟩ :=
                    ih as0 []
                      (by simp only [List.length_cons, List.length_nil] at hn ⊢; omega) h
                  exact ⟨m, suf, hms, .starSkip hex⟩
              | cons x s0 =>
                  simp only [matchesPrefixPart, Bool.or_eq_true] at h
                  rcases h with h | h
                  · obtain ⟨m, suf, hms, hex⟩ :=
                      ih as0 (x :: s0)
                        (by simp only [List.length_cons] at hn ⊢; omega) h
                    exact ⟨m, suf, hms, .starSkip hex⟩
                  · obtain ⟨m, suf, rfl, hex⟩ :=
                      ih (.starAny :: as0) s0
                        (by simp only [List.length_cons] at hn ⊢; omega) h
                    exact ⟨x :: m, suf, rfl, .starCons x hex⟩

/-- The prefix matcher succeeds exactly on inputs whose prefix is exactly
matched by the atoms. -/
theorem matchesPrefixPart_iff (as : List RegexAtom) (s : List Char) :
    matchesPrefixPart as s = true ↔ ∃ m suf, s = m ++ suf ∧ ExactMatch as m := by
  constructor
  · exact matchesPrefixPart_decomp (as.length + s.length) as s le_rfl
  · rintro ⟨m, suf, rfl, hex⟩
    exact exactMatch_matchesPrefixPart hex suf

/-- The unanchored test succeeds exactly when some substring — any start, any
end — is exactly matched by the atoms. -/
theorem regexTest_iff (atoms : List RegexAtom) :
    ∀ s : List Char, regexTest atoms s = true ↔
      ∃ pre m suf, s = pre ++ (m ++ suf) ∧ ExactMatch atoms m := by
  intro s
  induction s with
  | nil =>
      simp only [regexTest, matchesPrefixPart_iff]
      constructor
      · rintro ⟨m, suf, h, hex⟩
        exact ⟨[], m, suf, by simpa using h, hex⟩
      · rintro ⟨pre, m, suf, h, hex⟩
        cases pre with
        | nil => exact ⟨m, suf, by simpa using h, hex⟩
        | cons p pre0 => simp at h
  | cons c t ih =>
      simp only [regexTest, Bool.or_eq_true, matchesPrefixPart_iff, ih]
      constructor
      · rintro (⟨m, suf, heq, hex⟩ | ⟨pre, m, suf, heq, hex⟩)
        · exact ⟨[], m, suf, by simpa using heq, hex⟩
        · exact ⟨c :: pre, m, suf, by simp [heq], hex⟩
      · rintro ⟨pre, m, suf, heq, hex⟩
        cases pre with
        | nil => exact Or.inl ⟨m, suf, by simpa using heq, hex⟩
        | cons p pre0 =>
            right
            refine ⟨pre0, m, suf, ?_, hex⟩
            simpa using congrArg List.tail heq

/-- C10: isOriginAllowed turns each domain pattern into a regular expression
only by replacing every star with dot-star — no anchors added, dots left
unescaped — and tests the origin with it, so it accepts exactly the origins in
the allow-list plus every origin that merely CONTAINS a substring fully
matched by some pattern's atoms (a pattern dot matching any one character and
a pattern star any run); full-origin matching is not required. -/
theorem isOriginAllowed_spec (config : GatewayConfig) (origin : String) :
    isOriginAllowed config origin = true ↔
      origin ∈ config.allowedOrigins ∨
        ∃ p ∈ config.domainPatterns, ∃ pre m suf,
          origin.toList = pre ++ (m ++ suf) ∧ ExactMatch (patternAtoms p) m := by
  unfold isOriginAllowed
  simp only [Bool.or_eq_true, List.any_eq_true, regexTest_iff, List.elem_iff]

end SuperMarketplace
